import Mathlib

/-!
# hello-world kernel module (`hello-world/src/hello-world.c`)

A shallow embedding of the module's two callbacks and of its registration
declarations.  The kernel log is explicit state: a callback takes the log
before the call and returns its C result together with the log after it.
-/

namespace HelloWorld

/-! ## The kernel log and `printk` -/

/-- One record of the kernel log: the severity it was logged at and its text. -/
structure LogRecord where
  level : Int
  text : String
deriving DecidableEq, Repr

/-- The kernel log, oldest record first. -/
abbrev Log := List LogRecord

/-- Start-of-header byte of a severity prefix (`KERN_SOH`, ASCII 1). -/
def KERN_SOH : String := "\x01"

/-- Modelled from the spec: the macro `KERN_INFO` comes from the kernel headers
included on lines 1-3 and is not part of the file; the spec calls it the
severity tagged informational.  In C it is a string literal that the compiler
glues in front of the message, here the header byte followed by the digit 6. -/
def KERN_INFO : String := KERN_SOH ++ "6"

/-- Numeric severity of informational records. -/
def LOGLEVEL_INFO : Int := 6

/-- Severity of a record whose format carries no severity prefix. -/
def LOGLEVEL_DEFAULT : Int := -1

/-- Severity digit of a format string, when it starts with a severity prefix:
the header byte followed by one of the digits 0 to 7. -/
def printk_get_level : List Char → Option Int
  | h :: d :: _ =>
    if h.toNat = 1 ∧ 48 ≤ d.toNat ∧ d.toNat ≤ 55 then some (Int.ofNat (d.toNat - 48))
    else none
  | _ => none

/-- Format string without its severity prefix. -/
def printk_skip_level (buffer : List Char) : List Char :=
  match printk_get_level buffer with
  | some _ => buffer.drop 2
  | none => buffer

/-- Modelled from the spec: `printk` is the host's log sink and is not part of
the file.  Called with a format and no further argument, it appends one record
to the log: the severity named by the prefix of the format (the default when
there is none) and the rest of the format as text.  Both formats of this module
are free of conversion specifiers.  The C result is the number of characters
logged. -/
def printk (fmt : String) (log : Log) : Nat × Log :=
  let body := printk_skip_level fmt.data
  let level := (printk_get_level fmt.data).getD LOGLEVEL_DEFAULT
  (body.length, log ++ [{ level := level, text := String.mk body }])

/-! ## The two callbacks -/

/-- Load callback, lines 9-13: logs the greeting, then returns 0. -/
def hello_2_init (log : Log) : Int × Log :=
  let log1 := (printk (KERN_INFO ++ "Hello, world! We're inside the Omega2's kernel.\n") log).2
  (0, log1)

/-- Unload callback, lines 15-18: logs the farewell; the C function is `void`. -/
def hello_2_exit (log : Log) : Unit × Log :=
  let log1 := (printk (KERN_INFO ++ "Goodbye, world!\n") log).2
  ((), log1)

/-- The greeting record: informational severity, the text logged on load. -/
def greeting : LogRecord :=
  { level := LOGLEVEL_INFO, text := "Hello, world! We're inside the Omega2's kernel.\n" }

/-- The farewell record: informational severity, the text logged on unload. -/
def farewell : LogRecord :=
  { level := LOGLEVEL_INFO, text := "Goodbye, world!\n" }

/-! ## Registration with the host -/

/-- An entry of the module's `.modinfo` section: `tag=info`. -/
def MODULE_INFO (tag info : String) : String := tag ++ "=" ++ info

/-- Entry declaring the license. -/
def MODULE_LICENSE (license : String) : String := MODULE_INFO "license" license

/-- Entry declaring the author. -/
def MODULE_AUTHOR (name : String) : String := MODULE_INFO "author" name

/-- Entry declaring the one-line description. -/
def MODULE_DESCRIPTION (desc : String) : String := MODULE_INFO "description" desc

/-- What the host's loader finds in a module: the `.modinfo` entries and the two
entry points `init_module` and `cleanup_module`. -/
structure Module where
  modinfo : List String
  init_module : Log → Int × Log
  cleanup_module : Log → Unit × Log

/-- Declarations of the file: lines 5-7 give the three `.modinfo` entries,
`module_init(hello_2_init)` on line 20 makes `hello_2_init` the entry point
`init_module`, `module_exit(hello_2_exit)` on line 21 makes `hello_2_exit` the
entry point `cleanup_module`. -/
def THIS_MODULE : Module :=
  { modinfo :=
      List.cons (MODULE_LICENSE "GPL")
        (List.cons (MODULE_AUTHOR "Maximilian Gerhardt")
          (List.cons (MODULE_DESCRIPTION "Basic kernel module for tutorial") []))
    init_module := hello_2_init
    cleanup_module := hello_2_exit }

/-- Value of the first `.modinfo` entry with the given tag, as the loader reads it. -/
def get_modinfo (m : Module) (tag : String) : Option String :=
  (m.modinfo.find? (fun e => (tag ++ "=").data.isPrefixOf e.data)).map
    (fun e => String.mk (e.data.drop (tag.length + 1)))

/-! ## Sequences of callback invocations -/

/-- The two callbacks a host can invoke. -/
inductive Callback where
  | on_load
  | on_unload
deriving DecidableEq, Repr

/-- Log after the host invokes one registered callback. -/
def invoke (m : Module) : Callback → Log → Log
  | Callback.on_load, log => (m.init_module log).2
  | Callback.on_unload, log => (m.cleanup_module log).2

/-- Log after the host invokes the callbacks of a sequence, first one first. -/
def replay (m : Module) : List Callback → Log → Log
  | [], log => log
  | c :: cs, log => replay m cs (invoke m c log)

/-- The record each callback of this module is expected to add. -/
def emits : Callback → LogRecord
  | Callback.on_load => greeting
  | Callback.on_unload => farewell

/-- The callback sequence of `n` complete load/unload cycles. -/
def cycles : Nat → List Callback
  | 0 => []
  | n + 1 => Callback.on_load :: Callback.on_unload :: cycles n

/-- The list of length `k` that alternates `a`, `b`, `a`, ... from the left. -/
def alt {α : Type} (a b : α) : Nat → List α
  | 0 => []
  | k + 1 => alt a b k ++ [if k % 2 = 0 then a else b]

/-! ## The lifecycle state machine -/

/-- The two lifecycle states. -/
inductive ModState where
  | Unloaded
  | Loaded
deriving DecidableEq, Repr

/-- Requests an operator makes of the host: insert the module, remove it. -/
inductive Event where
  | load
  | unload
deriving DecidableEq, Repr

/-- A callback invocation as the host observes it: `init` with the status it
returned, or `exit`. -/
inductive Call where
  | init (status : Int)
  | exit
deriving DecidableEq, Repr

/-- Host-side view of one module: its lifecycle state, the kernel log, and the
callback invocations made so far, oldest first. -/
structure Host where
  state : ModState
  log : Log
  calls : List Call

/-- Modelled from the spec: the host's module management is not part of the
file.  The spec gives the states Unloaded and Loaded, the transition
Unloaded to Loaded on a successful `on_load`, the transition Loaded to Unloaded
on `on_unload`, and no other transition; a non-zero status from `on_load` makes
the host discard the module.  A request with no transition is refused. -/
def Host.step (m : Module) (h : Host) : Event → Option Host
  | Event.load =>
    match h.state with
    | ModState.Unloaded =>
      let r := m.init_module h.log
      some { state := if r.1 = 0 then ModState.Loaded else ModState.Unloaded
             log := r.2
             calls := h.calls ++ [Call.init r.1] }
    | ModState.Loaded => none
  | Event.unload =>
    match h.state with
    | ModState.Loaded =>
      let r := m.cleanup_module h.log
      some { state := ModState.Unloaded
             log := r.2
             calls := h.calls ++ [Call.exit] }
    | ModState.Unloaded => none

/-- Modelled from the spec: the initial state is Unloaded; no callback has been
invoked and the log holds whatever the kernel logged before. -/
def Host.boot (log : Log) : Host :=
  { state := ModState.Unloaded, log := log, calls := [] }

/-- Host after a sequence of requests, or `none` once one is refused. -/
def Host.run (m : Module) : Host → List Event → Option Host
  | h, [] => some h
  | h, e :: es =>
    match Host.step m h e with
    | some h1 => Host.run m h1 es
    | none => none

/-! ## Vocabulary of the properties -/

/-- The records a call added: what the log after it holds beyond the log before it. -/
def emitted (before after : Log) : List LogRecord :=
  after.drop before.length

/-- Every occurrence of `b` in `l` comes after an occurrence of `a` with no
other `b` in between. -/
def PrecededBy {α : Type} (a b : α) (l : List α) : Prop :=
  ∀ i : Nat, l[i]? = some b →
    ∃ j : Nat, j < i ∧ l[j]? = some a ∧ ∀ m : Nat, j < m → m < i → l[m]? ≠ some b

/-- What holds of every host reachable from `Host.boot L0` with this module:
after `k` callback invocations the calls alternate successful `init` and `exit`,
the log is `L0` followed by alternating greeting and farewell, and the state is
Loaded exactly when `k` is odd. -/
def Host.Inv (L0 : Log) (h : Host) : Prop :=
  ∃ k, h.calls = alt (Call.init 0) Call.exit k ∧
    h.log = L0 ++ alt greeting farewell k ∧
    h.state = if k % 2 = 0 then ModState.Unloaded else ModState.Loaded

/-! ## Basic facts about the callbacks -/

theorem printk_info (text : String) (log : Log) :
    (printk (KERN_INFO ++ text) log).2 = log ++ [{ level := LOGLEVEL_INFO, text := text }] := by
  cases text with
  | mk cs => rfl

theorem hello_2_init_eq (log : Log) : hello_2_init log = (0, log ++ [greeting]) := by
  rfl

theorem hello_2_exit_eq (log : Log) : hello_2_exit log = ((), log ++ [farewell]) := by
  rfl

theorem greeting_ne_farewell : greeting ≠ farewell := by decide

theorem invoke_eq (c : Callback) (log : Log) :
    invoke THIS_MODULE c log = log ++ [emits c] := by
  cases c <;> rfl

theorem replay_eq (cs : List Callback) (log : Log) :
    replay THIS_MODULE cs log = log ++ cs.map emits := by
  induction cs generalizing log with
  | nil => simp [replay]
  | cons c cs ih => simp [replay, ih, invoke_eq]

/-! ## Alternating lists -/

theorem alt_length {α : Type} (a b : α) (k : Nat) : (alt a b k).length = k := by
  induction k with
  | zero => rfl
  | succ k ih => simp [alt, ih]

theorem alt_getElem? {α : Type} (a b : α) (k i : Nat) :
    (alt a b k)[i]? = if i < k then some (if i % 2 = 0 then a else b) else none := by
  induction k with
  | zero => simp [alt]
  | succ k ih =>
    rcases Nat.lt_trichotomy i k with hlt | heq | hgt
    · have h1 : i < (alt a b k).length := by rw [alt_length]; exact hlt
      have h2 : i < k + 1 := by omega
      simp only [alt, List.getElem?_append_left h1, ih, if_pos hlt, if_pos h2]
    · subst heq
      have h1 : (alt a b i).length ≤ i := by rw [alt_length]
      simp [alt, List.getElem?_append_right h1, alt_length]
    · have h1 : (alt a b k).length ≤ i := by rw [alt_length]; omega
      have h2 : ¬ i < k + 1 := by omega
      have h3 : i - k ≠ 0 := by omega
      simp only [alt, List.getElem?_append_right h1, alt_length, if_neg h2]
      cases hd : i - k with
      | zero => exact absurd hd h3
      | succ d => rfl

theorem alt_cons_cons {α : Type} (a b : α) (k : Nat) :
    a :: b :: alt a b k = alt a b (k + 2) := by
  induction k with
  | zero => simp [alt]
  | succ k ih =>
    have hpar : (k + 2) % 2 = k % 2 := by omega
    calc a :: b :: alt a b (k + 1)
        = (a :: b :: alt a b k) ++ [if k % 2 = 0 then a else b] := by simp [alt]
      _ = alt a b (k + 2) ++ [if (k + 2) % 2 = 0 then a else b] := by rw [ih, hpar]
      _ = alt a b (k + 1 + 2) := rfl

/-- In an alternating list every `b` has an `a` right before it. -/
theorem alt_preceded {α : Type} (a b : α) (hab : a ≠ b) (k i : Nat)
    (hi : (alt a b k)[i]? = some b) :
    ∃ j, j < i ∧ (alt a b k)[j]? = some a ∧
      ∀ m, j < m → m < i → (alt a b k)[m]? ≠ some b := by
  rw [alt_getElem?] at hi
  by_cases hik : i < k
  · rw [if_pos hik] at hi
    by_cases hpar : i % 2 = 0
    · rw [if_pos hpar] at hi
      exact absurd (Option.some.inj hi) hab
    · refine ⟨i - 1, by omega, ?_, ?_⟩
      · have h1 : i - 1 < k := by omega
        have h2 : (i - 1) % 2 = 0 := by omega
        rw [alt_getElem?, if_pos h1, if_pos h2]
      · intro m hm1 hm2
        omega
  · rw [if_neg hik] at hi
    exact absurd hi (by simp)

theorem alt_count_fst {α : Type} [DecidableEq α] (a b : α) (hab : a ≠ b) (k : Nat) :
    (alt a b k).count a = (k + 1) / 2 := by
  induction k with
  | zero => rfl
  | succ k ih =>
    by_cases hpar : k % 2 = 0
    · simp only [alt, if_pos hpar, List.count_append, ih, List.count_singleton_self]
      omega
    · have hba : ¬ (b == a) = true := by simpa using fun h => hab h.symm
      simp only [alt, if_neg hpar, List.count_append, ih, List.count_cons, List.count_nil,
        if_neg hba]
      omega

theorem alt_count_snd {α : Type} [DecidableEq α] (a b : α) (hab : a ≠ b) (k : Nat) :
    (alt a b k).count b = k / 2 := by
  induction k with
  | zero => rfl
  | succ k ih =>
    by_cases hpar : k % 2 = 0
    · have hab2 : ¬ (a == b) = true := by simpa using hab
      simp only [alt, if_pos hpar, List.count_append, ih, List.count_cons, List.count_nil,
        if_neg hab2]
      omega
    · simp only [alt, if_neg hpar, List.count_append, ih, List.count_singleton_self]
      omega

theorem cycles_emits (n : Nat) : (cycles n).map emits = alt greeting farewell (2 * n) := by
  induction n with
  | zero => rfl
  | succ n ih =>
    have h2 : 2 * (n + 1) = 2 * n + 2 := by ring
    rw [h2, ← alt_cons_cons, ← ih]
    rfl

theorem cycles_load_emits (n : Nat) :
    (cycles n ++ [Callback.on_load]).map emits = alt greeting farewell (2 * n + 1) := by
  have hpar : (2 * n) % 2 = 0 := by omega
  simp [alt, cycles_emits, hpar, emits]

/-! ## Invariant of the lifecycle state machine -/

theorem Host.boot_inv (L0 : Log) : Host.Inv L0 (Host.boot L0) :=
  ⟨0, rfl, by simp [Host.boot, alt], rfl⟩

theorem Host.step_inv (L0 : Log) (h h1 : Host) (e : Event) (hinv : Host.Inv L0 h)
    (hs : Host.step THIS_MODULE h e = some h1) : Host.Inv L0 h1 := by
  obtain ⟨k, hc, hl, hst⟩ := hinv
  by_cases hpar : k % 2 = 0
  · rw [if_pos hpar] at hst
    cases e with
    | load =>
      simp only [Host.step, hst, THIS_MODULE, hello_2_init_eq, Option.some.injEq] at hs
      subst hs
      refine ⟨k + 1, ?_, ?_, ?_⟩
      · simp [alt, hc, hpar]
      · simp [alt, hl, hpar]
      · have h1 : ¬ (k + 1) % 2 = 0 := by omega
        simp [h1]
    | unload => simp [Host.step, hst] at hs
  · rw [if_neg hpar] at hst
    cases e with
    | load => simp [Host.step, hst] at hs
    | unload =>
      simp only [Host.step, hst, THIS_MODULE, hello_2_exit_eq, Option.some.injEq] at hs
      subst hs
      refine ⟨k + 1, ?_, ?_, ?_⟩
      · simp [alt, hc, hpar]
      · simp [alt, hl, hpar]
      · have h1 : (k + 1) % 2 = 0 := by omega
        simp [h1]

theorem Host.run_inv (L0 : Log) (es : List Event) (h h1 : Host) (hinv : Host.Inv L0 h)
    (hr : Host.run THIS_MODULE h es = some h1) : Host.Inv L0 h1 := by
  induction es generalizing h with
  | nil =>
    simp only [Host.run, Option.some.injEq] at hr
    exact hr ▸ hinv
  | cons e es ih =>
    simp only [Host.run] at hr
    cases hs : Host.step THIS_MODULE h e with
    | none => simp [hs] at hr
    | some h2 =>
      rw [hs] at hr
      exact ih h2 (Host.step_inv L0 h h2 e hinv hs) hr

theorem emitted_append (log added : Log) : emitted log (log ++ added) = added := by
  simp [emitted]

/-! ## Properties of the module -/

/-- C1: every invocation of the load callback `hello_2_init` returns status 0,
whatever the log before it and whatever sequence of earlier load and unload
callbacks produced that log; no log makes it return a non-zero status. -/
theorem hello_2_init_status_zero :
    (∀ L : Log, (hello_2_init L).1 = 0) ∧
    (∀ (cs : List Callback) (L : Log), (hello_2_init (replay THIS_MODULE cs L)).1 = 0) ∧
    ¬ ∃ L : Log, (hello_2_init L).1 ≠ 0 := by
  refine ⟨fun L => rfl, fun cs L => rfl, ?_⟩
  rintro ⟨L, hL⟩
  exact hL rfl

/-- C2: for every prior log `L`, one invocation of `hello_2_init` leaves the log
equal to `L` followed by exactly one new record, of informational severity (the
one `KERN_INFO` names) and with the greeting as its text; the records of `L` are
unchanged. -/
theorem hello_2_init_log (L : Log) :
    (hello_2_init L).2 =
      L ++ [{ level := LOGLEVEL_INFO,
              text := "Hello, world! We're inside the Omega2's kernel.\n" }] ∧
    (hello_2_init L).2.length = L.length + 1 ∧
    (hello_2_init L).2.take L.length = L ∧
    printk_get_level KERN_INFO.data = some LOGLEVEL_INFO := by
  refine ⟨rfl, ?_, ?_, rfl⟩
  · simp [hello_2_init_eq]
  · simp [hello_2_init_eq]

/-- C3: for every prior log `L`, one invocation of `hello_2_exit` leaves the log
equal to `L` followed by exactly one new record, of informational severity and
with the farewell as its text; the records of `L` are unchanged and the callback
returns no value (its result is the unit value). -/
theorem hello_2_exit_log (L : Log) :
    (hello_2_exit L).2 = L ++ [{ level := LOGLEVEL_INFO, text := "Goodbye, world!\n" }] ∧
    (hello_2_exit L).2.length = L.length + 1 ∧
    (hello_2_exit L).2.take L.length = L ∧
    (hello_2_exit L).1 = () := by
  refine ⟨rfl, ?_, ?_, rfl⟩
  · simp [hello_2_exit_eq]
  · simp [hello_2_exit_eq]

/-- C4: scenario 1.  From an empty log, `hello_2_init` followed by `hello_2_exit`
gives a log of exactly two records: the informational greeting, then the
informational farewell; the load step returns 0. -/
theorem scenario_load_unload :
    (hello_2_init []).1 = 0 ∧
    (hello_2_exit (hello_2_init []).2).2 =
      [{ level := LOGLEVEL_INFO, text := "Hello, world! We're inside the Omega2's kernel.\n" },
       { level := LOGLEVEL_INFO, text := "Goodbye, world!\n" }] ∧
    (hello_2_exit (hello_2_init []).2).2.length = 2 ∧
    replay THIS_MODULE [Callback.on_load, Callback.on_unload] [] =
      (hello_2_exit (hello_2_init []).2).2 :=
  ⟨rfl, rfl, rfl, rfl⟩

/-- C5: for every finite sequence of load and unload callbacks applied to an
initial log, the log afterwards is the initial log followed by as many new
records as there are invocations in the sequence: each `hello_2_init` and each
`hello_2_exit` adds exactly one, and the empty sequence adds none. -/
theorem one_record_per_invocation (cs : List Callback) (L : Log) :
    (emitted L (replay THIS_MODULE cs L)).length = cs.length ∧
    replay THIS_MODULE cs L = L ++ emitted L (replay THIS_MODULE cs L) ∧
    (replay THIS_MODULE cs L).length = L.length + cs.length ∧
    replay THIS_MODULE [] L = L ∧
    (emitted L (hello_2_init L).2).length = 1 ∧
    (emitted L (hello_2_exit L).2).length = 1 := by
  refine ⟨?_, ?_, ?_, rfl, ?_, ?_⟩
  · rw [replay_eq, emitted_append, List.length_map]
  · rw [replay_eq, emitted_append]
  · rw [replay_eq, List.length_append, List.length_map]
  · rw [hello_2_init_eq, emitted_append]
    rfl
  · rw [hello_2_exit_eq, emitted_append]
    rfl

/-- C6: in the lifecycle state machine started in state Unloaded, in every
reachable host each `exit` invocation is preceded by an `init` invocation that
returned 0 with no other `exit` in between, and among the records added to the
log each farewell is preceded by a greeting with no other farewell in between. -/
theorem unload_preceded_by_load (L0 : Log) (es : List Event) (h : Host)
    (hr : Host.run THIS_MODULE (Host.boot L0) es = some h) :
    PrecededBy (Call.init 0) Call.exit h.calls ∧
    h.log = L0 ++ emitted L0 h.log ∧
    PrecededBy greeting farewell (emitted L0 h.log) := by
  obtain ⟨k, hc, hl, _⟩ := Host.run_inv L0 es (Host.boot L0) h (Host.boot_inv L0) hr
  have hne : Call.init 0 ≠ Call.exit := by decide
  refine ⟨?_, ?_, ?_⟩
  · rw [hc]
    exact fun i hi => alt_preceded _ _ hne k i hi
  · rw [hl, emitted_append]
  · rw [hl, emitted_append]
    exact fun i hi => alt_preceded _ _ greeting_ne_farewell k i hi

/-- C6 at a concrete trace: load, unload, load, unload from an empty log. -/
theorem unload_preceded_by_load_witness :
    Host.run THIS_MODULE (Host.boot [])
        [Event.load, Event.unload, Event.load, Event.unload] =
      some { state := ModState.Unloaded
             log := [greeting, farewell, greeting, farewell]
             calls := [Call.init 0, Call.exit, Call.init 0, Call.exit] } ∧
    PrecededBy (Call.init 0) Call.exit [Call.init 0, Call.exit, Call.init 0, Call.exit] ∧
    PrecededBy greeting farewell (emitted [] [greeting, farewell, greeting, farewell]) :=
  have h := unload_preceded_by_load []
    [Event.load, Event.unload, Event.load, Event.unload]
    { state := ModState.Unloaded
      log := [greeting, farewell, greeting, farewell]
      calls := [Call.init 0, Call.exit, Call.init 0, Call.exit] } rfl
  ⟨rfl, h.1, h.2.2⟩

/-- C7: scenario 2.  From an empty log, load, unload, load gives the log
greeting, farewell, greeting; in general `n` complete load/unload cycles
followed by a load give `2 * n + 1` records, of which `n + 1` are greetings and
`n` are farewells, the record at every even position being the greeting and the
record at every odd position the farewell. -/
theorem scenario_load_unload_load :
    replay THIS_MODULE [Callback.on_load, Callback.on_unload, Callback.on_load] [] =
      [greeting, farewell, greeting] ∧
    List.count greeting [greeting, farewell, greeting] = 2 ∧
    ∀ n : Nat,
      (replay THIS_MODULE (cycles n ++ [Callback.on_load]) []).length = 2 * n + 1 ∧
      (replay THIS_MODULE (cycles n ++ [Callback.on_load]) []).count greeting = n + 1 ∧
      (replay THIS_MODULE (cycles n ++ [Callback.on_load]) []).count farewell = n ∧
      ∀ i, i < 2 * n + 1 →
        (replay THIS_MODULE (cycles n ++ [Callback.on_load]) [])[i]? =
          some (if i % 2 = 0 then greeting else farewell) := by
  refine ⟨rfl, by decide, fun n => ?_⟩
  have hlog : replay THIS_MODULE (cycles n ++ [Callback.on_load]) [] =
      alt greeting farewell (2 * n + 1) := by
    rw [replay_eq, cycles_load_emits, List.nil_append]
  rw [hlog]
  refine ⟨alt_length _ _ _, ?_, ?_, ?_⟩
  · rw [alt_count_fst _ _ greeting_ne_farewell]
    omega
  · rw [alt_count_snd _ _ greeting_ne_farewell]
    omega
  · intro i hi
    rw [alt_getElem?, if_pos hi]

/-- C8: any two invocations of `hello_2_init`, on any two logs and after any two
histories of earlier callbacks, return the same status and emit the same single
record: informational severity and the fixed greeting text. -/
theorem load_message_stable (cs1 cs2 : List Callback) (L1 L2 : Log) :
    (hello_2_init (replay THIS_MODULE cs1 L1)).1 =
      (hello_2_init (replay THIS_MODULE cs2 L2)).1 ∧
    emitted (replay THIS_MODULE cs1 L1) (hello_2_init (replay THIS_MODULE cs1 L1)).2 =
      emitted (replay THIS_MODULE cs2 L2) (hello_2_init (replay THIS_MODULE cs2 L2)).2 ∧
    emitted (replay THIS_MODULE cs1 L1) (hello_2_init (replay THIS_MODULE cs1 L1)).2 =
      [{ level := LOGLEVEL_INFO,
         text := "Hello, world! We're inside the Omega2's kernel.\n" }] ∧
    emitted L1 (hello_2_init L1).2 = emitted L2 (hello_2_init L2).2 := by
  refine ⟨rfl, ?_, ?_, ?_⟩
  · rw [hello_2_init_eq, hello_2_init_eq, emitted_append, emitted_append]
  · rw [hello_2_init_eq, emitted_append]
    rfl
  · rw [hello_2_init_eq, hello_2_init_eq, emitted_append, emitted_append]

/-- C9: the registration of the module declares the license "GPL", the author
"Maximilian Gerhardt" and the description "Basic kernel module for tutorial",
none of them empty, with `hello_2_init` as the load entry point and
`hello_2_exit` as the unload entry point. -/
theorem registration_complete :
    get_modinfo THIS_MODULE "license" = some "GPL" ∧
    get_modinfo THIS_MODULE "author" = some "Maximilian Gerhardt" ∧
    get_modinfo THIS_MODULE "description" = some "Basic kernel module for tutorial" ∧
    (∀ tag ∈ ["license", "author", "description"],
      ∃ v, get_modinfo THIS_MODULE tag = some v ∧ v ≠ "") ∧
    THIS_MODULE.init_module = hello_2_init ∧
    THIS_MODULE.cleanup_module = hello_2_exit ∧
    (THIS_MODULE.init_module []).2 = [greeting] ∧
    (THIS_MODULE.cleanup_module []).2 = [farewell] := by
  refine ⟨by decide, by decide, by decide, ?_, rfl, rfl, rfl, rfl⟩
  intro tag htag
  simp only [List.mem_cons, List.mem_singleton, List.mem_nil_iff, or_false] at htag
  rcases htag with h | h | h
  · subst h
    exact ⟨"GPL", by decide, by decide⟩
  · subst h
    exact ⟨"Maximilian Gerhardt", by decide, by decide⟩
  · subst h
    exact ⟨"Basic kernel module for tutorial", by decide, by decide⟩

/-- C10: `hello_2_exit` checks nothing about the log it is given.  On a log with
no greeting record it still appends the farewell (so the log afterwards holds a
farewell and still no greeting), and the record it emits there is the one it
emits on any other log, in particular on a log that `hello_2_init` has just
extended. -/
theorem unload_without_load (L : Log) (hno : greeting ∉ L) :
    hello_2_exit L = ((), L ++ [farewell]) ∧
    emitted L (hello_2_exit L).2 = [farewell] ∧
    greeting ∉ (hello_2_exit L).2 ∧
    (∀ L1 : Log, emitted L1 (hello_2_exit L1).2 = emitted L (hello_2_exit L).2) ∧
    emitted (hello_2_init L).2 (hello_2_exit (hello_2_init L).2).2 =
      emitted L (hello_2_exit L).2 := by
  refine ⟨rfl, ?_, ?_, fun L1 => ?_, ?_⟩
  · rw [hello_2_exit_eq, emitted_append]
  · rw [hello_2_exit_eq]
    simp [hno, greeting_ne_farewell]
  · rw [hello_2_exit_eq, hello_2_exit_eq, emitted_append, emitted_append]
  · rw [hello_2_exit_eq, hello_2_exit_eq, emitted_append, emitted_append]

/-- C10 on the empty log: the farewell is appended although nothing was loaded. -/
theorem unload_without_load_witness :
    greeting ∉ ([] : Log) ∧ hello_2_exit [] = ((), [farewell]) :=
  ⟨List.not_mem_nil greeting, (unload_without_load [] (List.not_mem_nil greeting)).1⟩

end HelloWorld
